import Mathlib

/-!
# Release-Pulse — verification of the agentic assistant

Shallow embedding of `portfolio-agentic/agentic_assistant.py`: the tool
executor `_run_tool` and the conversation loop `run_agent`, together with
theorems about the tool contracts and the loop behaviour.

Conventions of the embedding:
* pandas dataframes become Lean lists of structure values (one structure per
  table row); column operations become list operations;
* machine floats become `ℚ` (all numeric data in the tables is read from CSV
  and only added/divided/compared, never produced by float-specific ops);
* Python code that can raise becomes `Except String`-valued functions, the
  string holding the exception description;
* the JSON value handed to `json.dumps` / produced by `to_json` is kept in
  structured form (`JVal`); `json.dumps` itself is an injective encoding of
  that value and is not modelled.
-/

namespace ReleasePulse

/-! ## Data model: the four tables held in the context dict -/

/-- One row of the `reviews` table (columns used by the assistant:
`review_id`, `RC_ver`, `theme_label`, `score`, `content`, `final_weight`).
`RC_ver` and `theme_label` are nullable columns: `none` stands for NaN. -/
structure Review where
  review_id : String
  RC_ver : Option String
  theme_label : Option String
  score : ℚ
  content : String
  final_weight : ℚ
deriving DecidableEq, Repr

/-- One row of the `priority` (backlog) table. -/
structure PriorityRow where
  theme : String
  Priority_Score : ℚ
  Reach : ℚ
  Impact : ℚ
  Confidence : ℚ
  Effort : ℚ
  Is_Regression : Bool
  Is_Persistent : Bool
deriving DecidableEq, Repr

/-- One row of the `persistence` table. -/
structure PersistenceRow where
  theme : String
  Is_Persistent : Bool
deriving DecidableEq, Repr

/-- One row of the `version_signal` table. -/
structure VersionSignalRow where
  theme : String
  RC_ver : Option String
  Normalized_Signal : ℚ
  Delta : Option ℚ
  Is_Regression : Bool
deriving DecidableEq, Repr

/-- The `ctx` dict handed to `_run_tool`: `ctx.get(key)` yields `None` when a
table is absent, hence every table is optional. -/
structure Ctx where
  reviews : Option (List Review)
  priority : Option (List PriorityRow)
  persistence : Option (List PersistenceRow)
  version_signal : Option (List VersionSignalRow)
deriving DecidableEq

/-! ## JSON values

The structured value that the Python code passes to `json.dumps` (or that
`DataFrame.to_json(orient="records")` encodes). -/

inductive JVal where
  | jnull : JVal
  | jbool (b : Bool) : JVal
  | jnum (q : ℚ) : JVal
  | jstr (s : String) : JVal
  | jarr (xs : List JVal) : JVal
  | jobj (fields : List (String × JVal)) : JVal

/-- `arguments.get(key, default)` on the decoded JSON argument dict. -/
def getArg (args : List (String × JVal)) (key : String) (dflt : JVal) : JVal :=
  match args.find? (fun p => p.1 == key) with
  | some p => p.2
  | none => dflt

/-- `arguments.get(key)` (default `None`). -/
def getArg? (args : List (String × JVal)) (key : String) : Option JVal :=
  (args.find? (fun p => p.1 == key)).map (fun p => p.2)

/-! ## Python scalar semantics -/

/-- Truncation toward zero: the value of Python `int()` on a float. -/
def ratTrunc (q : ℚ) : Int := q.num.tdiv (q.den : Int)

/-- Whitespace-stripping on a character list (Python `str.strip()`,
implemented structurally so that it evaluates inside the kernel). -/
def trimChars (cs : List Char) : List Char :=
  ((cs.dropWhile Char.isWhitespace).reverse.dropWhile Char.isWhitespace).reverse

/-- Python `s.strip()` on a string. -/
def pyTrim (s : String) : String := String.mk (trimChars s.toList)

/-- Python `s.lower()` (ASCII case folding, character by character). -/
def pyLower (s : String) : String := String.mk (s.toList.map Char.toLower)

/-- Python `int(s)` on a string: strip whitespace, optional sign, decimal
digits; anything else raises `ValueError`. -/
def parsePyIntStr (s : String) : Except String Int :=
  let t := trimChars s.toList
  let neg : Bool := t.head? == some '-'
  let core := if t.head? == some '-' || t.head? == some '+' then t.tail else t
  if !core.isEmpty && core.all Char.isDigit then
    .ok ((if neg then -1 else 1) * (core.foldl (fun n c => 10 * n + (c.toNat - 48)) 0 : Nat))
  else
    .error ("ValueError: invalid literal for int() with base 10: " ++ s)

/-- Python `int(x)` on a decoded JSON value: exact on numbers (truncating
toward zero), parses strings, converts booleans, raises `TypeError`
otherwise (in particular on `None`). -/
def pyInt : JVal → Except String Int
  | .jnum q => .ok (ratTrunc q)
  | .jstr s => parsePyIntStr s
  | .jbool b => .ok (if b then 1 else 0)
  | .jnull => .error "TypeError: int() argument must be a string or a number, not NoneType"
  | .jarr _ => .error "TypeError: int() argument must be a string or a number, not list"
  | .jobj _ => .error "TypeError: int() argument must be a string or a number, not dict"

/-- Python truthiness of a decoded JSON value (`if version:`). -/
def pyTruthy : JVal → Bool
  | .jnull => false
  | .jbool b => b
  | .jnum q => decide (q ≠ 0)
  | .jstr s => decide (s ≠ "")
  | .jarr xs => !xs.isEmpty
  | .jobj fs => !fs.isEmpty

/-- Python `str(x)` on decoded JSON scalars. Only the string case is exercised
by any theorem below; the remaining cases record the conversion shape. -/
def pyStr : JVal → String
  | .jstr s => s
  | .jnull => "None"
  | .jbool b => if b then "True" else "False"
  | .jnum q => if q.den = 1 then toString q.num else toString q
  | .jarr _ => "<list>"
  | .jobj _ => "<dict>"

/-- Python `x.strip()`: defined for strings, raises `AttributeError` on every
other value. -/
def pyStrip : JVal → Except String String
  | .jstr s => .ok (pyTrim s)
  | _ => .error "AttributeError: object has no attribute strip"

/-- Contiguous-sublist test on character lists. -/
def charsInfix (needle : List Char) : List Char → Bool
  | [] => needle.isEmpty
  | c :: rest => needle.isPrefixOf (c :: rest) || charsInfix needle rest

/-- Python `a in b` on strings (contiguous substring test). -/
def pySubstr (a b : String) : Bool := charsInfix a.toList b.toList

/-! ## pandas operations -/

/-- Stable insertion of `x` into a list sorted ascending by `key`: `x` is
placed before the first element whose key is `≥ key x`. -/
def insertAsc [LinearOrder β] (key : α → β) (x : α) : List α → List α
  | [] => [x]
  | y :: ys => if key x ≤ key y then x :: y :: ys else y :: insertAsc key x ys

/-- Stable ascending insertion sort by `key`. This is numpy argsort exactly
for arrays of at most 16 elements, where the default quicksort (introsort)
runs its insertion-sort fallback; for larger arrays introsort reorders equal
keys, so this model over-specifies tie order there — every theorem below
therefore asserts tie order only under an explicit `length ≤ 16` bound, and
only tie-insensitive facts (length, membership, key order) without it. -/
def sortAsc [LinearOrder β] (key : α → β) : List α → List α
  | [] => []
  | x :: xs => insertAsc key x (sortAsc key xs)

/-- `sort_values(col, ascending=False)` with the default `kind='quicksort'`:
pandas `nargsort` reverses the rows, takes an ascending argsort, and reverses
the resulting indexer again. With the stable argsort model above, ties come
out in original row order — faithful to the program exactly for frames of at
most 16 rows (see `sortAsc`); beyond that the program guarantees no tie
order, and no theorem below claims one. -/
def sortValuesDesc [LinearOrder β] (key : α → β) (xs : List α) : List α :=
  (sortAsc key xs.reverse).reverse

/-- `DataFrame.head(n)`: first `n` rows for `n ≥ 0`, all but the last `|n|`
rows for negative `n`. -/
def dfHead (n : Int) (xs : List α) : List α :=
  if 0 ≤ n then xs.take n.toNat else xs.take (xs.length - n.natAbs)

/-- `DataFrame.nlargest(n, col)` (keep=first): empty for `n ≤ 0`, otherwise
the `n` rows with the largest key, descending, earlier rows preferred on
ties. -/
def nlargest [LinearOrder β] (n : Int) (key : α → β) (xs : List α) : List α :=
  if n ≤ 0 then [] else (sortValuesDesc key xs).take n.toNat

/-- Helper for `uniqueFirst`: keep each element not seen before. -/
def uniqueFirstAux [DecidableEq α] (seen : List α) : List α → List α
  | [] => []
  | x :: xs => if x ∈ seen then uniqueFirstAux seen xs else x :: uniqueFirstAux (x :: seen) xs

/-- `Series.unique()`: distinct values in order of first occurrence. -/
def uniqueFirst [DecidableEq α] (l : List α) : List α := uniqueFirstAux [] l

/-- Code-point lexicographic strict comparison on character lists (Python
string `<`). -/
def charsLt : List Char → List Char → Bool
  | [], [] => false
  | [], _ :: _ => true
  | _ :: _, [] => false
  | a :: as, b :: bs => decide (a < b) || (a == b && charsLt as bs)

/-- Lexicographic maximum of two strings (Python `max` / pandas `Series.max`
on a string column). -/
def strMax (a b : String) : String := if charsLt a.toList b.toList then b else a

/-- `Series.max()` over the non-null values of a string column: `NaN` when
the column is empty. -/
def strMax? : List String → Option String
  | [] => none
  | v :: vs => some (vs.foldl strMax v)

/-! ## The tool executor `_run_tool` -/

/-- `reviews["theme_label"].dropna().unique().tolist()`. -/
def themesList (rs : List Review) : List String :=
  uniqueFirst (rs.filterMap Review.theme_label)

/-- `astype(str)` on the `theme_label` column: pandas renders a missing label
(NaN) as the string "nan". -/
def labelStr (r : Review) : String := r.theme_label.getD "nan"

/-- `astype(str)` on the `RC_ver` column. -/
def rcVerStr (r : Review) : String := r.RC_ver.getD "nan"

/-- The theme-resolution step of `get_theme_reviews`: keep an exact
case-sensitive match, otherwise take the first known label containing the
requested theme case-insensitively, otherwise leave the theme unchanged. -/
def resolveTheme (themes_list : List String) (theme : String) : String :=
  if theme ∈ themes_list then theme
  else
    match themes_list.find? (fun t => pySubstr (pyLower theme) (pyLower t)) with
    | some t => t
    | none => theme

/-- A single ASCII apostrophe (avoids quote characters inside literals). -/
def sq : String := String.singleton (Char.ofNat 39)

/-- The f-string `No data for theme (...)` with the theme in single quotes. -/
def themeErrMsg (t : String) : String := "No data for theme " ++ sq ++ t ++ sq

/-- Record emitted per backlog row (column projection of line 99). -/
def priorityRowJson (r : PriorityRow) : JVal :=
  .jobj [("theme", .jstr r.theme), ("Priority_Score", .jnum r.Priority_Score),
         ("Reach", .jnum r.Reach), ("Impact", .jnum r.Impact),
         ("Confidence", .jnum r.Confidence), ("Effort", .jnum r.Effort),
         ("Is_Regression", .jbool r.Is_Regression),
         ("Is_Persistent", .jbool r.Is_Persistent)]

/-- Record emitted per sample review (line 120). -/
def reviewJson (r : Review) : JVal :=
  .jobj [("content", .jstr r.content), ("score", .jnum r.score),
         ("final_weight", .jnum r.final_weight)]

def optStrJson : Option String → JVal
  | none => .jnull
  | some s => .jstr s

/-- Record emitted per regression row (column projection of line 128). -/
def regressionRowJson (v : VersionSignalRow) : JVal :=
  .jobj [("theme", .jstr v.theme), ("RC_ver", optStrJson v.RC_ver),
         ("Normalized_Signal", .jnum v.Normalized_Signal),
         ("Delta", match v.Delta with | none => .jnull | some d => .jnum d)]

/-- Record emitted per persistent row (column projection of line 134). -/
def persistenceRowJson (p : PersistenceRow) : JVal :=
  .jobj [("theme", .jstr p.theme), ("Is_Persistent", .jbool p.Is_Persistent)]

/-! ### `get_theme_summary_stats` aggregation -/

/-- `Series.round(2)` after the percentage computation. -/
def round2 (q : ℚ) : ℚ := (round (100 * q) : ℤ) / 100

/-- Insert a string into an ascending list (code-point order). -/
def insertStrAsc (x : String) : List String → List String
  | [] => [x]
  | y :: ys => if charsLt y.toList x.toList then y :: insertStrAsc x ys else x :: y :: ys

/-- Ascending insertion sort on strings (code-point order). -/
def sortStrAsc : List String → List String
  | [] => []
  | x :: xs => insertStrAsc x (sortStrAsc xs)

/-- The group keys of `df.groupby("theme_label")`: distinct non-null labels,
sorted ascending (pandas groupby default `sort=True`). -/
def groupKeys (df : List Review) : List String :=
  sortStrAsc (uniqueFirst (df.filterMap Review.theme_label))

/-- `total_weight=("final_weight", "sum")` for one group. -/
def groupWeight (df : List Review) (t : String) : ℚ :=
  ((df.filter (fun r => r.theme_label == some t)).map Review.final_weight).sum

/-- `review_count=("review_id", "count")` for one group. -/
def groupCount (df : List Review) (t : String) : Nat :=
  (df.filter (fun r => r.theme_label == some t)).length

/-- `avg_rating=("score", "mean")` for one group. -/
def groupAvg (df : List Review) (t : String) : ℚ :=
  ((df.filter (fun r => r.theme_label == some t)).map Review.score).sum
    / (groupCount df t : ℚ)

/-- `agg["total_weight"].sum()`. -/
def aggTotalWeight (df : List Review) : ℚ :=
  ((groupKeys df).map (groupWeight df)).sum

/-- One row of the aggregate frame, after the `pain_share_pct` column is
assigned. -/
structure ThemeAgg where
  theme_label : String
  total_weight : ℚ
  review_count : Nat
  avg_rating : ℚ
  pain_share_pct : ℚ
deriving DecidableEq, Repr

/-- The aggregate frame of lines 147–152 (division on `ℚ`, where `x / 0 = 0`;
every theorem below only touches the case of a positive total weight). -/
def summaryAgg (df : List Review) : List ThemeAgg :=
  (groupKeys df).map (fun t =>
    ⟨t, groupWeight df t, groupCount df t, groupAvg df t,
      round2 (100 * groupWeight df t / aggTotalWeight df)⟩)

/-- Record emitted per aggregate row (line 153). -/
def themeAggJson (a : ThemeAgg) : JVal :=
  .jobj [("theme_label", .jstr a.theme_label),
         ("total_weight", .jnum a.total_weight),
         ("review_count", .jnum (a.review_count : ℚ)),
         ("avg_rating", .jnum a.avg_rating),
         ("pain_share_pct", .jnum a.pain_share_pct)]

/-- `df["RC_ver"].dropna().max()` (max skips NaN). -/
def latestVersion (df : List Review) : Option String :=
  strMax? (df.filterMap Review.RC_ver)

/-- The `else` branch of the version handling in `get_theme_summary_stats`:
keep the rows of the latest version (all-NaN column leaves nothing, since
`NaN == NaN` is false in pandas). -/
def dfLatest (reviews : List Review) : List Review :=
  match latestVersion reviews with
  | none => []
  | some m => reviews.filter (fun r => r.RC_ver == some m)

/-- The `get_priority_backlog` block of `_run_tool` (lines 96–100). -/
def get_priority_backlog (arguments : List (String × JVal)) (ctx : Ctx) :
    Except String JVal × Ctx :=
  match pyInt (getArg arguments "top_n" (.jnum 10)) with
  | .error e => (.error e, ctx)
  | .ok top_n =>
    match ctx.priority with
    | none => (.error "AttributeError: NoneType object has no attribute sort_values", ctx)
    | some priority =>
      let df := dfHead top_n (sortValuesDesc PriorityRow.Priority_Score priority)
      (.ok (.jarr (df.map priorityRowJson)), ctx)

/-- The `get_theme_reviews` block of `_run_tool` (lines 102–121). -/
def get_theme_reviews (arguments : List (String × JVal)) (ctx : Ctx) :
    Except String JVal × Ctx :=
  match pyStrip (getArg arguments "theme" (.jstr "")) with
  | .error e => (.error e, ctx)
  | .ok theme0 =>
    let version := getArg? arguments "version"
    match pyInt (getArg arguments "limit" (.jnum 5)) with
    | .error e => (.error e, ctx)
    | .ok limit =>
      match ctx.reviews with
      | none =>
        (.ok (.jobj [("error", .jstr "No review data"),
                     ("available_themes", .jarr [])]), ctx)
      | some reviews =>
        let themes_list := themesList reviews
        let theme := resolveTheme themes_list theme0
        let sub := reviews.filter (fun r => labelStr r == theme)
        if sub.isEmpty then
          (.ok (.jobj [("error", .jstr (themeErrMsg theme)),
                       ("available_themes", .jarr (themes_list.map JVal.jstr))]), ctx)
        else
          let sub2 := match version with
            | some v => if pyTruthy v then sub.filter (fun r => rcVerStr r == pyStr v) else sub
            | none => sub
          (.ok (.jarr ((nlargest limit Review.final_weight sub2).map reviewJson)), ctx)

/-- The `get_regression_themes` block of `_run_tool` (lines 123–129). -/
def get_regression_themes (ctx : Ctx) : Except String JVal × Ctx :=
  match ctx.version_signal with
  | none => (.ok (.jarr []), ctx)
  | some vs =>
    let reg := vs.filter (fun v : VersionSignalRow => v.Is_Regression)
    let reg2 := match strMax? (vs.filterMap VersionSignalRow.RC_ver) with
      | none => []
      | some m => reg.filter (fun v : VersionSignalRow => v.RC_ver == some m)
    (.ok (.jarr (reg2.map regressionRowJson)), ctx)

/-- The `get_persistence_themes` block of `_run_tool` (lines 131–135). -/
def get_persistence_themes (ctx : Ctx) : Except String JVal × Ctx :=
  match ctx.persistence with
  | none => (.ok (.jarr []), ctx)
  | some ps =>
    (.ok (.jarr ((ps.filter (fun p : PersistenceRow => p.Is_Persistent)).map persistenceRowJson)), ctx)

/-- The `get_theme_summary_stats` block of `_run_tool` (lines 137–153). -/
def get_theme_summary_stats (arguments : List (String × JVal)) (ctx : Ctx) :
    Except String JVal × Ctx :=
  match ctx.reviews with
  | none => (.ok (.jobj [("error", .jstr "No review data")]), ctx)
  | some reviews =>
    let df := match getArg? arguments "version" with
      | some v =>
        if pyTruthy v then reviews.filter (fun r => rcVerStr r == pyStr v)
        else dfLatest reviews
      | none => dfLatest reviews
    (.ok (.jarr ((summaryAgg df).map themeAggJson)), ctx)

/-- `_run_tool(name, arguments, ctx)`: dispatch on the tool name; any other
name yields the structured unknown-tool payload (line 155). Returns the
structured JSON result (or the description of the exception the Python code
would raise) together with the table store after execution. -/
def runTool (name : String) (arguments : List (String × JVal)) (ctx : Ctx) :
    Except String JVal × Ctx :=
  if name = "get_priority_backlog" then get_priority_backlog arguments ctx
  else if name = "get_theme_reviews" then get_theme_reviews arguments ctx
  else if name = "get_regression_themes" then get_regression_themes ctx
  else if name = "get_persistence_themes" then get_persistence_themes ctx
  else if name = "get_theme_summary_stats" then get_theme_summary_stats arguments ctx
  else
    (.ok (.jobj [("error", .jstr ("Unknown tool: " ++ name))]), ctx)

/-! ## The conversation loop `run_agent` -/

/-- The `function` part of a tool call: its name and the decoded argument
payload. `arguments = none` stands for a payload `json.loads` rejects
(`JSONDecodeError`), which the loop replaces by the empty argument dict. -/
structure ToolCallFn where
  name : String
  arguments : Option (List (String × JVal))

/-- One tool call requested by the model. -/
structure ToolCall where
  id : String
  function : ToolCallFn

/-- The message part of a model choice: `content` and `tool_calls`. -/
structure ModelMsg where
  content : Option String
  tool_calls : List ToolCall

/-- One model choice, consumed through `finish_reason` and `message`. -/
structure Choice where
  finish_reason : String
  message : ModelMsg

/-- One entry of the `messages` conversation list. A tool message carries the
structured tool result (the string fed back is its `json.dumps` encoding). -/
inductive Msg where
  | system (content : String) : Msg
  | user (content : String) : Msg
  | assistant (m : ModelMsg) : Msg
  | tool (tool_call_id : String) (content : JVal) : Msg

/-- The system instruction seeded into the conversation. -/
def SYSTEM_PROMPT : String :=
  "You are an expert Product Management assistant for ReleasePulse, an AI-powered feedback intelligence dashboard. You help PMs interpret release data, prioritize work, and understand user feedback.\n\nYou have access to tools that query:\n- Priority backlog (RICE-ranked themes)\n- Sample user reviews per theme\n- Regression flags (themes that got worse vs previous release)\n- Persistence flags (themes that are long-standing issues)\n- Theme-level summary stats\n\nUse the tools as needed to answer the user's question. After calling tools, summarize the results in clear, actionable language. If the user asks \"why\" something is prioritized, use both the backlog and sample reviews to explain. Always cite specific numbers or themes when relevant. If no tool is needed (e.g. general methodology question), answer from your knowledge."

/-- The fixed message of the degraded/offline path (lines 165–168). -/
def notConfiguredMessage : String :=
  "**Agentic AI is not configured.** Set `OPENAI_API_KEY` in your environment and install `openai` to use the assistant. This dashboard uses an LLM with **tool-calling**: it decides which data to fetch (priority backlog, theme reviews, regressions, etc.) and then answers from that data."

/-- The fixed fallback returned when the turn budget is exhausted (line 204). -/
def turnLimitMessage : String :=
  "I hit the turn limit. Please try a shorter or more focused question."

/-- `max_turns = 8`. -/
def max_turns : Nat := 8

/-- `api_key = api_key or os.environ.get("OPENAI_API_KEY")`: a truthy explicit
argument wins, otherwise the environment value (possibly absent). -/
def resolveApiKey (apiKeyArg envKey : Option String) : Option String :=
  match apiKeyArg with
  | some s => if s = "" then envKey else some s
  | none => envKey

/-- Python truthiness of the resolved key (`if ... not api_key`). -/
def pyTruthyStr : Option String → Bool
  | none => false
  | some s => decide (s ≠ "")

/-- The decoded arguments of a tool call after the `json.loads` fallback:
a malformed payload becomes the empty dict. -/
def argsOf (tc : ToolCall) : List (String × JVal) :=
  tc.function.arguments.getD []

/-- The body of `for tc in choice.message.tool_calls` (lines 187–201): run
each requested tool in order and append `choice.message` and the tool-result
message to the conversation — the source appends `choice.message` inside the
per-call loop, once per call. Returns the grown conversation (or the
exception a tool raised), the number of tool executions, and the store. -/
def processToolCalls (assistantMsg : ModelMsg) :
    List ToolCall → List Msg → Nat → Ctx → Except String (List Msg) × Nat × Ctx
  | [], msgs, runs, ctx => (.ok msgs, runs, ctx)
  | tc :: rest, msgs, runs, ctx =>
    match runTool tc.function.name (argsOf tc) ctx with
    | (.error e, ctx2) => (.error e, runs + 1, ctx2)
    | (.ok result, ctx2) =>
      processToolCalls assistantMsg rest
        (msgs ++ [.assistant assistantMsg, .tool tc.id result]) (runs + 1) ctx2

/-- The outcome of one `run_agent` invocation: the returned string (or the
exception that propagated), the number of model completions requested, the
number of tool executions, and the table store when the call ends. -/
structure AgentOut where
  result : Except String String
  modelCalls : Nat
  toolRuns : Nat
  ctxAfter : Ctx

/-- The `for _ in range(max_turns)` loop of lines 176–204, with the remaining
turn budget as fuel. Each iteration requests one model completion; a `stop`
finish reason returns the content, a `tool_calls` finish reason with a
non-empty call list executes the tools and continues, anything else returns
the content; an exhausted budget returns the fixed fallback. -/
def agentLoop (model : List Msg → Choice) :
    Nat → List Msg → Nat → Nat → Ctx → AgentOut
  | 0, _, calls, runs, ctx => ⟨.ok turnLimitMessage, calls, runs, ctx⟩
  | fuel + 1, msgs, calls, runs, ctx =>
    let choice := model msgs
    if choice.finish_reason = "stop" then
      ⟨.ok (choice.message.content.getD ""), calls + 1, runs, ctx⟩
    else if choice.finish_reason = "tool_calls" ∧ ¬choice.message.tool_calls.isEmpty then
      match processToolCalls choice.message choice.message.tool_calls msgs runs ctx with
      | (.error e, runs2, ctx2) => ⟨.error e, calls + 1, runs2, ctx2⟩
      | (.ok msgs2, runs2, ctx2) => agentLoop model fuel msgs2 (calls + 1) runs2 ctx2
    else
      ⟨.ok (choice.message.content.getD ""), calls + 1, runs, ctx⟩

/-- `run_agent(user_message, context, api_key)`. The external model is a
function from the submitted conversation to the first choice of its
response; `envApiKey` is `os.environ.get("OPENAI_API_KEY")` and
`openaiAvailable` the `OPENAI_AVAILABLE` import flag. -/
def run_agent (user_message : String) (context : Ctx) (api_key : Option String)
    (envApiKey : Option String) (openaiAvailable : Bool)
    (model : List Msg → Choice) : AgentOut :=
  let key := resolveApiKey api_key envApiKey
  if openaiAvailable = false ∨ pyTruthyStr key = false then
    ⟨.ok notConfiguredMessage, 0, 0, context⟩
  else
    agentLoop model max_turns [.system SYSTEM_PROMPT, .user user_message] 0 0 context

/-! ## Helper lemmas: the table store passes through unchanged -/

theorem get_priority_backlog_ctx (args : List (String × JVal)) (ctx : Ctx) :
    (get_priority_backlog args ctx).2 = ctx := by
  unfold get_priority_backlog
  repeat' (first | split | dsimp only)

theorem get_theme_reviews_ctx (args : List (String × JVal)) (ctx : Ctx) :
    (get_theme_reviews args ctx).2 = ctx := by
  unfold get_theme_reviews
  repeat' (first | split | dsimp only)

theorem get_regression_themes_ctx (ctx : Ctx) :
    (get_regression_themes ctx).2 = ctx := by
  unfold get_regression_themes
  repeat' (first | split | dsimp only)

theorem get_persistence_themes_ctx (ctx : Ctx) :
    (get_persistence_themes ctx).2 = ctx := by
  unfold get_persistence_themes
  repeat' (first | split | dsimp only)

theorem get_theme_summary_stats_ctx (args : List (String × JVal)) (ctx : Ctx) :
    (get_theme_summary_stats args ctx).2 = ctx := by
  unfold get_theme_summary_stats
  repeat' (first | split | dsimp only)

theorem runTool_ctx (name : String) (args : List (String × JVal)) (ctx : Ctx) :
    (runTool name args ctx).2 = ctx := by
  unfold runTool
  repeat' split
  · exact get_priority_backlog_ctx args ctx
  · exact get_theme_reviews_ctx args ctx
  · exact get_regression_themes_ctx ctx
  · exact get_persistence_themes_ctx ctx
  · exact get_theme_summary_stats_ctx args ctx
  · rfl

theorem processToolCalls_ctx (am : ModelMsg) (l : List ToolCall) (msgs : List Msg)
    (runs : Nat) (ctx : Ctx) : (processToolCalls am l msgs runs ctx).2.2 = ctx := by
  induction l generalizing msgs runs with
  | nil => rfl
  | cons tc rest ih =>
    have hc := runTool_ctx tc.function.name (argsOf tc) ctx
    unfold processToolCalls
    rcases hr : runTool tc.function.name (argsOf tc) ctx with ⟨r, c2⟩
    rw [hr] at hc
    subst hc
    cases r with
    | error e => simp [hr]
    | ok v =>
      simp only [hr]
      exact ih _ _

theorem agentLoop_ctx (model : List Msg → Choice) (fuel : Nat) (msgs : List Msg)
    (calls runs : Nat) (ctx : Ctx) :
    (agentLoop model fuel msgs calls runs ctx).ctxAfter = ctx := by
  induction fuel generalizing msgs calls runs with
  | zero => rfl
  | succ n ih =>
    unfold agentLoop
    dsimp only
    split
    · rfl
    split
    · have hp := processToolCalls_ctx (model msgs).message (model msgs).message.tool_calls
        msgs runs ctx
      rcases hq : processToolCalls (model msgs).message (model msgs).message.tool_calls
          msgs runs ctx with ⟨r, runs2, ctx2⟩
      rw [hq] at hp
      have hp2 : ctx2 = ctx := hp
      subst hp2
      cases r with
      | error e => simp [hq]
      | ok msgs2 =>
        simp only [hq]
        exact ih _ _ _
    · rfl

/-! ## C8 -/

/-- C8: no tool execution and no conversation-loop invocation mutates any of
the four tables: the store coming out of `_run_tool`, and the store after a
whole `run_agent` call, equal the store that went in. -/
theorem store_never_mutated (name : String) (args : List (String × JVal)) (ctx : Ctx)
    (user : String) (apiKeyArg envKey : Option String) (avail : Bool)
    (model : List Msg → Choice) :
    (runTool name args ctx).2 = ctx
      ∧ (run_agent user ctx apiKeyArg envKey avail model).ctxAfter = ctx := by
  refine ⟨runTool_ctx name args ctx, ?_⟩
  unfold run_agent
  dsimp only
  split
  · rfl
  · exact agentLoop_ctx model max_turns _ 0 0 ctx

/-! ## C5 -/

/-- C5: with no usable credential (the `openai` import failed, or neither the
explicit argument nor the environment variable carries a truthy key),
`run_agent` returns the fixed explanatory message at once: zero model calls,
zero tool executions, store untouched. -/
theorem run_agent_offline (user : String) (ctx : Ctx) (apiKeyArg envKey : Option String)
    (avail : Bool) (model : List Msg → Choice)
    (h : avail = false ∨ pyTruthyStr (resolveApiKey apiKeyArg envKey) = false) :
    run_agent user ctx apiKeyArg envKey avail model
      = ⟨.ok notConfiguredMessage, 0, 0, ctx⟩ := by
  unfold run_agent
  rcases h with h | h <;> simp [h]

/-- Witness for C5: no explicit key, no environment key, library unavailable. -/
theorem run_agent_offline_witness :
    run_agent "What should we fix first?" ⟨none, none, none, none⟩ none none false
        (fun _ => ⟨"stop", ⟨some "ignored", []⟩⟩)
      = ⟨.ok notConfiguredMessage, 0, 0, ⟨none, none, none, none⟩⟩ :=
  run_agent_offline "What should we fix first?" ⟨none, none, none, none⟩ none none false
    (fun _ => ⟨"stop", ⟨some "ignored", []⟩⟩) (Or.inl rfl)

/-! ## C3 -/

/-- C3 counterexample: `_run_tool` is not total on every argument mapping —
`get_priority_backlog` with `top_n = None` raises `TypeError` out of `int()`
(line 97) instead of returning a serialized result. -/
theorem runTool_raises_on_null_top_n :
    (runTool "get_priority_backlog" [("top_n", JVal.jnull)] ⟨none, some [], none, none⟩).1
      = .error "TypeError: int() argument must be a string or a number, not NoneType" := by
  rfl

/-- C3 (amended): for every name outside the five registered tools and every
argument mapping, `_run_tool` returns the structured unknown-tool payload and
cannot raise — the never-raises guarantee holds for the unknown-tool path,
though not for registered tools on unconvertible arguments. -/
theorem runTool_unknown_tool (name : String) (args : List (String × JVal)) (ctx : Ctx)
    (h : name ∉ (["get_priority_backlog", "get_theme_reviews", "get_regression_themes",
                  "get_persistence_themes", "get_theme_summary_stats"] : List String)) :
    runTool name args ctx
      = (.ok (.jobj [("error", .jstr ("Unknown tool: " ++ name))]), ctx) := by
  simp only [List.mem_cons, List.not_mem_nil, or_false, not_or] at h
  obtain ⟨h1, h2, h3, h4, h5⟩ := h
  unfold runTool
  simp [h1, h2, h3, h4, h5]

/-- Witness for C3 (amended) at a concrete unknown name. -/
theorem runTool_unknown_tool_witness :
    runTool "get_roadmap" [] ⟨none, none, none, none⟩
      = (.ok (.jobj [("error", .jstr "Unknown tool: get_roadmap")]), ⟨none, none, none, none⟩) :=
  runTool_unknown_tool "get_roadmap" [] ⟨none, none, none, none⟩ (by decide)

/-! ## C1 -/

/-- A model turn requesting two persistence lookups. -/
def twoCallMsg : ModelMsg :=
  ⟨none, [⟨"call_1", ⟨"get_persistence_themes", some []⟩⟩,
          ⟨"call_2", ⟨"get_persistence_themes", some []⟩⟩]⟩

/-- C1: evaluating the tool-call loop body (lines 187–201) on a turn with two
requested calls shows the assistant tool-call message appended once per call
— the conversation grows by `[assistant, tool₁, assistant, tool₂]`, not by
the assistant message once followed by both tool results:
`messages.append(choice.message)` sits inside the `for tc` loop. -/
theorem toolTurn_appends_assistant_per_call :
    processToolCalls twoCallMsg twoCallMsg.tool_calls
        [.system SYSTEM_PROMPT, .user "what is persistent?"] 0 ⟨none, none, none, none⟩
      = (.ok [.system SYSTEM_PROMPT, .user "what is persistent?",
              .assistant twoCallMsg, .tool "call_1" (.jarr []),
              .assistant twoCallMsg, .tool "call_2" (.jarr [])],
         2, ⟨none, none, none, none⟩) := by
  rfl

/-! ## C4 -/

theorem processToolCalls_ok (am : ModelMsg) (l : List ToolCall) (msgs : List Msg)
    (runs : Nat) (ctx : Ctx)
    (h : ∀ tc ∈ l, ∃ v, (runTool tc.function.name (argsOf tc) ctx).1 = Except.ok v) :
    ∃ msgs2, processToolCalls am l msgs runs ctx = (.ok msgs2, runs + l.length, ctx) := by
  induction l generalizing msgs runs with
  | nil => exact ⟨msgs, rfl⟩
  | cons tc rest ih =>
    obtain ⟨v, hv⟩ := h tc (List.mem_cons_self tc rest)
    have hc := runTool_ctx tc.function.name (argsOf tc) ctx
    rcases hr : runTool tc.function.name (argsOf tc) ctx with ⟨r, c2⟩
    rw [hr] at hv hc
    subst hc
    simp only at hv
    subst hv
    obtain ⟨msgs2, hm⟩ := ih (msgs ++ [.assistant am, .tool tc.id v]) (runs + 1)
      (fun tc2 h2 => h tc2 (List.mem_cons_of_mem tc h2))
    refine ⟨msgs2, ?_⟩
    unfold processToolCalls
    rw [hr]
    dsimp only
    rw [hm, List.length_cons]
    have harith : runs + 1 + rest.length = runs + (rest.length + 1) := by omega
    rw [harith]

theorem agentLoop_always_tools (model : List Msg → Choice) (ctx : Ctx)
    (hreq : ∀ msgs, (model msgs).finish_reason = "tool_calls"
      ∧ (model msgs).message.tool_calls ≠ [])
    (hok : ∀ msgs, ∀ tc ∈ (model msgs).message.tool_calls,
      ∃ v, (runTool tc.function.name (argsOf tc) ctx).1 = Except.ok v) :
    ∀ fuel msgs calls runs, ∃ runs2,
      agentLoop model fuel msgs calls runs ctx
        = ⟨.ok turnLimitMessage, calls + fuel, runs2, ctx⟩ := by
  intro fuel
  induction fuel with
  | zero => exact fun msgs calls runs => ⟨runs, by simp [agentLoop]⟩
  | succ n ih =>
    intro msgs calls runs
    obtain ⟨hfin, hne⟩ := hreq msgs
    obtain ⟨msgs2, hm⟩ := processToolCalls_ok (model msgs).message
      (model msgs).message.tool_calls msgs runs ctx (hok msgs)
    obtain ⟨runs2, hl⟩ := ih msgs2 (calls + 1) (runs + (model msgs).message.tool_calls.length)
    refine ⟨runs2, ?_⟩
    unfold agentLoop
    dsimp only
    rw [if_neg (by rw [hfin]; decide), if_pos ⟨hfin, by simpa using hne⟩, hm]
    dsimp only
    rw [hl]
    simp only [AgentOut.mk.injEq, and_true, true_and]
    omega

/-- C4: a model that never finishes with a plain answer — every turn has
finish reason `tool_calls` with a non-empty call list — and whose requested
calls all execute without raising drives `run_agent` through exactly 8 model
completions, never a 9th, and the loop returns the fixed turn-limit fallback
message. -/
theorem run_agent_turn_limit (user : String) (ctx : Ctx) (apiKeyArg envKey : Option String)
    (model : List Msg → Choice)
    (hkey : pyTruthyStr (resolveApiKey apiKeyArg envKey) = true)
    (hreq : ∀ msgs, (model msgs).finish_reason = "tool_calls"
      ∧ (model msgs).message.tool_calls ≠ [])
    (hok : ∀ msgs, ∀ tc ∈ (model msgs).message.tool_calls,
      ∃ v, (runTool tc.function.name (argsOf tc) ctx).1 = Except.ok v) :
    (run_agent user ctx apiKeyArg envKey true model).result = .ok turnLimitMessage
      ∧ (run_agent user ctx apiKeyArg envKey true model).modelCalls = 8 := by
  obtain ⟨runs2, hl⟩ := agentLoop_always_tools model ctx hreq hok max_turns
    [.system SYSTEM_PROMPT, .user user] 0 0
  unfold run_agent
  dsimp only
  rw [if_neg (by simp [hkey]), hl]
  exact ⟨rfl, rfl⟩

/-- A scripted model that always requests one persistence lookup and never
stops. -/
def alwaysToolModel : List Msg → Choice :=
  fun _ => ⟨"tool_calls", ⟨none, [⟨"call_0", ⟨"get_persistence_themes", some []⟩⟩]⟩⟩

/-- Witness for C4: the scripted always-calling model hits the turn limit
after exactly 8 model calls. -/
theorem run_agent_turn_limit_witness :
    (run_agent "what keeps breaking?" ⟨none, none, none, none⟩ (some "sk-test") none true
        alwaysToolModel).result = .ok turnLimitMessage
      ∧ (run_agent "what keeps breaking?" ⟨none, none, none, none⟩ (some "sk-test") none true
        alwaysToolModel).modelCalls = 8 :=
  run_agent_turn_limit "what keeps breaking?" ⟨none, none, none, none⟩ (some "sk-test") none
    alwaysToolModel (by decide)
    (fun _ => ⟨rfl, List.cons_ne_nil _ _⟩)
    (fun _ tc h => by
      simp only [alwaysToolModel, List.mem_singleton] at h
      subst h
      exact ⟨.jarr [], rfl⟩)

/-! ## Lemmas about theme resolution -/

theorem mem_uniqueFirstAux [DecidableEq α] (l : List α) (seen : List α) (x : α) :
    x ∈ uniqueFirstAux seen l ↔ x ∈ l ∧ x ∉ seen := by
  induction l generalizing seen with
  | nil => simp [uniqueFirstAux]
  | cons y ys ih =>
    by_cases hy : y ∈ seen
    · rw [uniqueFirstAux, if_pos hy, ih]
      simp only [List.mem_cons]
      constructor
      · rintro ⟨hx, hs⟩
        exact ⟨Or.inr hx, hs⟩
      · rintro ⟨hx | hx, hs⟩
        · exact absurd (hx ▸ hy) hs
        · exact ⟨hx, hs⟩
    · rw [uniqueFirstAux, if_neg hy]
      simp only [List.mem_cons, ih, List.mem_cons, not_or]
      constructor
      · rintro (hx | ⟨hx, hs1, hs2⟩)
        · exact ⟨Or.inl hx, hx ▸ hy⟩
        · exact ⟨Or.inr hx, hs2⟩
      · rintro ⟨hx | hx, hs⟩
        · exact Or.inl hx
        · by_cases hxy : x = y
          · exact Or.inl hxy
          · exact Or.inr ⟨hx, hxy, hs⟩

theorem mem_uniqueFirst [DecidableEq α] (l : List α) (x : α) :
    x ∈ uniqueFirst l ↔ x ∈ l := by
  simp [uniqueFirst, mem_uniqueFirstAux]

theorem mem_themesList (rs : List Review) (t : String) :
    t ∈ themesList rs ↔ ∃ r ∈ rs, r.theme_label = some t := by
  simp [themesList, mem_uniqueFirst, List.mem_filterMap]

theorem charsInfix_nil (cs : List Char) : charsInfix [] cs = true := by
  cases cs <;> simp [charsInfix, List.isPrefixOf]

theorem pySubstr_empty_left (s : String) : pySubstr "" s = true :=
  charsInfix_nil s.toList

/-- The dispatcher sends `get_theme_reviews` to its block. -/
theorem runTool_theme_reviews (args : List (String × JVal)) (ctx : Ctx) :
    runTool "get_theme_reviews" args ctx = get_theme_reviews args ctx := rfl

/-- The resolution step picks the first label containing the requested theme
case-insensitively when there is no exact match. -/
theorem resolveTheme_of_find (labels : List String) (theme t : String)
    (hnoexact : theme ∉ labels)
    (hfind : labels.find? (fun t2 => pySubstr (pyLower theme) (pyLower t2)) = some t) :
    resolveTheme labels theme = t := by
  unfold resolveTheme
  rw [if_neg hnoexact, hfind]

/-- With no exact and no substring match the theme is left unchanged. -/
theorem resolveTheme_of_none (labels : List String) (theme : String)
    (hnoexact : theme ∉ labels)
    (hfind : labels.find? (fun t2 => pySubstr (pyLower theme) (pyLower t2)) = none) :
    resolveTheme labels theme = theme := by
  unfold resolveTheme
  rw [if_neg hnoexact, hfind]

/-- The empty theme resolves to the first known label (the empty string is a
substring of everything). -/
theorem resolveTheme_empty_string (labels : List String) (t0 : String)
    (hhead : labels.head? = some t0) (hne : "" ∉ labels) :
    resolveTheme labels "" = t0 := by
  cases labels with
  | nil => exact absurd hhead (by simp)
  | cons a as =>
    have ha : t0 = a := by
      simpa using hhead.symm
    rw [ha]
    unfold resolveTheme
    have hfind : List.find? (fun t2 => pySubstr (pyLower "") (pyLower t2)) (a :: as) = some a := by
      apply List.find?_cons_of_pos
      exact pySubstr_empty_left (pyLower a)
    rw [if_neg hne, hfind]

/-- Shape of the `get_theme_reviews` result when the resolved theme has rows
and no version argument is given. -/
theorem get_theme_reviews_found (args : List (String × JVal)) (rs : List Review)
    (p : Option (List PriorityRow)) (ps : Option (List PersistenceRow))
    (vs : Option (List VersionSignalRow)) (theme0 t : String) (limit : Int)
    (hstrip : pyStrip (getArg args "theme" (.jstr "")) = .ok theme0)
    (hlimit : pyInt (getArg args "limit" (.jnum 5)) = .ok limit)
    (hver : getArg? args "version" = none)
    (hres : resolveTheme (themesList rs) theme0 = t)
    (hsub : rs.filter (fun r => labelStr r == t) ≠ []) :
    get_theme_reviews args ⟨some rs, p, ps, vs⟩
      = (.ok (.jarr ((nlargest limit Review.final_weight
          (rs.filter (fun r => labelStr r == t))).map reviewJson)), ⟨some rs, p, ps, vs⟩) := by
  have hempty : (rs.filter (fun r => labelStr r == t)).isEmpty = false := by
    cases hcase : rs.filter (fun r => labelStr r == t) with
    | nil => exact absurd hcase hsub
    | cons b bs => rfl
  unfold get_theme_reviews
  rw [hstrip]
  dsimp only
  rw [hlimit]
  dsimp only
  rw [hver, hres, hempty]
  simp

/-! ## C9 -/

/-- C9: an empty (or defaulted) `theme` argument is never an exact label
match, and the case-insensitive substring fallback vacuously accepts the
first known label, so as soon as one labeled review exists the tool answers
with that first label rows (top-5 by final weight) instead of the
`error`/`available_themes` payload. -/
theorem theme_reviews_empty_theme (rs : List Review) (p : Option (List PriorityRow))
    (ps : Option (List PersistenceRow)) (vs : Option (List VersionSignalRow)) (t0 : String)
    (hhead : (themesList rs).head? = some t0) (hne : "" ∉ themesList rs) :
    (runTool "get_theme_reviews" [("theme", .jstr "")] ⟨some rs, p, ps, vs⟩).1
        = .ok (.jarr ((nlargest 5 Review.final_weight
            (rs.filter (fun r => labelStr r == t0))).map reviewJson))
      ∧ (runTool "get_theme_reviews" [] ⟨some rs, p, ps, vs⟩).1
        = .ok (.jarr ((nlargest 5 Review.final_weight
            (rs.filter (fun r => labelStr r == t0))).map reviewJson)) := by
  have ht0mem : t0 ∈ themesList rs := by
    cases hcase : themesList rs with
    | nil => rw [hcase] at hhead; exact absurd hhead (by simp)
    | cons a as =>
      rw [hcase] at hhead
      have : t0 = a := by simpa using hhead.symm
      rw [this]
      exact List.mem_cons_self a as
  obtain ⟨r, hrmem, hrlab⟩ := (mem_themesList rs t0).mp ht0mem
  have hsub : rs.filter (fun r => labelStr r == t0) ≠ [] := by
    apply List.ne_nil_of_mem (a := r)
    rw [List.mem_filter]
    exact ⟨hrmem, by simp [labelStr, hrlab]⟩
  have hres : resolveTheme (themesList rs) "" = t0 := resolveTheme_empty_string _ _ hhead hne
  constructor
  · rw [runTool_theme_reviews,
      get_theme_reviews_found [("theme", .jstr "")] rs p ps vs "" t0 5 rfl rfl rfl hres hsub]
  · rw [runTool_theme_reviews,
      get_theme_reviews_found [] rs p ps vs "" t0 5 rfl rfl rfl hres hsub]

/-- A labeled review used by the C9 witness. -/
def wReview : Review :=
  ⟨"w1", some "1.0", some "Playback Reliability", 2, "keeps buffering and skipping", 3/2⟩

/-- Witness for C9: one labeled review; the empty theme returns that review,
not the error payload. -/
theorem theme_reviews_empty_theme_witness :
    (themesList [wReview]).head? = some "Playback Reliability"
      ∧ ("" ∉ themesList [wReview])
      ∧ (runTool "get_theme_reviews" [("theme", .jstr "")] ⟨some [wReview], none, none, none⟩).1
          = .ok (.jarr ((nlargest 5 Review.final_weight
              ([wReview].filter (fun r => labelStr r == "Playback Reliability"))).map reviewJson)) :=
  ⟨by decide, by decide,
    (theme_reviews_empty_theme [wReview] none none none "Playback Reliability"
      (by decide) (by decide)).1⟩

/-! ## C6 -/

/-- A review whose theme label is missing (NaN). -/
def nanReview : Review := ⟨"r1", some "1.0", none, 3, "it crashed on launch", 1⟩

/-- C6 counterexample: with one null-labeled review, the theme `"nan"`
matches no known label (the known-label list is empty), yet the tool returns
that review instead of the `error`/`available_themes` payload — `astype(str)`
renders the missing label as the string "nan", so the subset test at line 114
succeeds and the emptiness check at line 115 never fires. -/
theorem theme_reviews_nan_counterexample :
    (runTool "get_theme_reviews" [("theme", .jstr "nan")] ⟨some [nanReview], none, none, none⟩).1
        = .ok (.jarr [reviewJson nanReview])
      ∧ themesList [nanReview] = []
      ∧ JVal.jarr [reviewJson nanReview]
        ≠ .jobj [("error", .jstr (themeErrMsg "nan")), ("available_themes", .jarr [])] :=
  ⟨by rfl, by rfl, fun h => JVal.noConfusion h⟩

/-- C6 (amended): with no exact case-sensitive match, the case-insensitive
substring fallback resolves the theme to the first matching known label; if
no label matches at all, then — provided the requested theme also differs
from every row stringified label (in particular it is not the rendering
"nan" of a missing label) — the tool returns the error payload whose
`available_themes` is the full list of distinct known labels. -/
theorem theme_resolution_and_error (args : List (String × JVal)) (rs : List Review)
    (p : Option (List PriorityRow)) (ps : Option (List PersistenceRow))
    (vs : Option (List VersionSignalRow)) (theme0 : String) (limit : Int)
    (hstrip : pyStrip (getArg args "theme" (.jstr "")) = .ok theme0)
    (hlimit : pyInt (getArg args "limit" (.jnum 5)) = .ok limit)
    (hnoexact : theme0 ∉ themesList rs) :
    (∀ t, (themesList rs).find? (fun t2 => pySubstr (pyLower theme0) (pyLower t2)) = some t →
        resolveTheme (themesList rs) theme0 = t ∧ t ∈ themesList rs
          ∧ pySubstr (pyLower theme0) (pyLower t) = true)
    ∧ ((themesList rs).find? (fun t2 => pySubstr (pyLower theme0) (pyLower t2)) = none →
        (∀ r ∈ rs, labelStr r ≠ theme0) →
        (runTool "get_theme_reviews" args ⟨some rs, p, ps, vs⟩).1
          = .ok (.jobj [("error", .jstr (themeErrMsg theme0)),
                        ("available_themes", .jarr ((themesList rs).map JVal.jstr))])) := by
  constructor
  · intro t hfind
    refine ⟨resolveTheme_of_find _ _ _ hnoexact hfind,
      List.mem_of_find?_eq_some hfind, ?_⟩
    have h3 := List.find?_some hfind
    simpa using h3
  · intro hfind hnorow
    have hres : resolveTheme (themesList rs) theme0 = theme0 :=
      resolveTheme_of_none _ _ hnoexact hfind
    have hsub : rs.filter (fun r => labelStr r == theme0) = [] := by
      rw [List.filter_eq_nil_iff]
      intro r hr
      simpa using hnorow r hr
    rw [runTool_theme_reviews]
    unfold get_theme_reviews
    rw [hstrip]
    dsimp only
    rw [hlimit]
    dsimp only
    rw [hres, hsub]
    simp

/-- A second labeled review (distinct theme) for the C6 witness. -/
def wReview2 : Review :=
  ⟨"w2", some "2.0", some "Navigation Bugs", 1, "home feed scrolls back up", 2⟩

/-- Witness for C6: `"gation bug"` is no exact label but a case-insensitive
substring of `Navigation Bugs`; `"zzz"` matches nothing and yields the error
payload listing both labels. -/
theorem theme_resolution_and_error_witness :
    ("gation bug" ∉ themesList [wReview, wReview2])
      ∧ resolveTheme (themesList [wReview, wReview2]) "gation bug" = "Navigation Bugs"
      ∧ ("zzz" ∉ themesList [wReview, wReview2])
      ∧ (runTool "get_theme_reviews" [("theme", .jstr "zzz")]
            ⟨some [wReview, wReview2], none, none, none⟩).1
          = .ok (.jobj [("error", .jstr (themeErrMsg "zzz")),
              ("available_themes",
                .jarr ((themesList [wReview, wReview2]).map JVal.jstr))]) :=
  ⟨by decide, by decide, by decide,
    (theme_resolution_and_error [("theme", .jstr "zzz")] [wReview, wReview2] none none none
        "zzz" 5 rfl rfl (by decide)).2 (by decide) (by decide)⟩

/-! ## C10 -/

/-- C10: when the requested theme resolves to a label that does have reviews,
a version filter that leaves nothing produces the empty JSON list `[]` — the
emptiness check (line 115) runs on the unfiltered theme subset, before the
version filter (line 117), so the error payload is never produced here. -/
theorem theme_reviews_version_empty (args : List (String × JVal)) (rs : List Review)
    (p : Option (List PriorityRow)) (ps : Option (List PersistenceRow))
    (vs : Option (List VersionSignalRow)) (theme0 t v : String) (limit : Int)
    (hstrip : pyStrip (getArg args "theme" (.jstr "")) = .ok theme0)
    (hlimit : pyInt (getArg args "limit" (.jnum 5)) = .ok limit)
    (hver : getArg? args "version" = some (.jstr v)) (hv : v ≠ "")
    (hres : resolveTheme (themesList rs) theme0 = t)
    (hsub : rs.filter (fun r => labelStr r == t) ≠ [])
    (hnone : ∀ r ∈ rs, labelStr r = t → rcVerStr r ≠ v) :
    (runTool "get_theme_reviews" args ⟨some rs, p, ps, vs⟩).1 = .ok (.jarr []) := by
  have hempty : (rs.filter (fun r => labelStr r == t)).isEmpty = false := by
    cases hcase : rs.filter (fun r => labelStr r == t) with
    | nil => exact absurd hcase hsub
    | cons b bs => rfl
  have hfilter : (rs.filter (fun r => labelStr r == t)).filter
      (fun r => rcVerStr r == pyStr (.jstr v)) = [] := by
    rw [List.filter_eq_nil_iff]
    intro r hr
    rw [List.mem_filter] at hr
    have hlab : labelStr r = t := by simpa using hr.2
    simpa [pyStr] using hnone r hr.1 hlab
  rw [runTool_theme_reviews]
  unfold get_theme_reviews
  rw [hstrip]
  dsimp only
  rw [hlimit]
  dsimp only
  rw [hver, hres, hempty, if_neg Bool.false_ne_true]
  dsimp only
  have hTruthy : pyTruthy (JVal.jstr v) = true := by
    simpa [pyTruthy] using hv
  rw [if_pos hTruthy, hfilter]
  simp [nlargest, sortValuesDesc, sortAsc]

/-- Witness for C10: the only Crash review is on version 1.0; asking for
version 2.0 returns the empty list, not the error payload. -/
theorem theme_reviews_version_empty_witness :
    ([wReview].filter (fun r => labelStr r == "Playback Reliability") ≠ [])
      ∧ (runTool "get_theme_reviews"
          [("theme", .jstr "Playback Reliability"), ("version", .jstr "9.9")]
          ⟨some [wReview], none, none, none⟩).1 = .ok (.jarr []) :=
  ⟨by decide,
    theme_reviews_version_empty
      [("theme", .jstr "Playback Reliability"), ("version", .jstr "9.9")]
      [wReview] none none none "Playback Reliability" "Playback Reliability" "9.9" 5
      rfl rfl rfl (by decide) (by decide) (by decide) (by decide)⟩

/-! ## C7 -/

/-- The dispatcher sends `get_theme_summary_stats` to its block. -/
theorem runTool_summary_stats (args : List (String × JVal)) (ctx : Ctx) :
    runTool "get_theme_summary_stats" args ctx = get_theme_summary_stats args ctx := rfl

theorem sum_map_div_const {α : Type} (l : List α) (f : α → ℚ) (W : ℚ) :
    (l.map (fun t => 100 * f t / W)).sum = 100 * (l.map f).sum / W := by
  induction l with
  | nil => simp
  | cons a as ih =>
    simp only [List.map_cons, List.sum_cons, ih]
    ring

theorem abs_round2_sub_le (x : ℚ) : |round2 x - x| ≤ 1 / 200 := by
  rw [round2]
  have h := abs_sub_round (100 * x)
  rw [abs_sub_comm] at h
  have hsplit : ((round (100 * x) : ℤ) : ℚ) / 100 - x
      = (((round (100 * x) : ℤ) : ℚ) - 100 * x) / 100 := by
    ring
  rw [hsplit, abs_div, abs_of_pos (by norm_num : (0:ℚ) < 100)]
  linarith

/-- C7: with no version argument, `get_theme_summary_stats` aggregates over
the rows whose `RC_ver` equals the maximum version present; each theme
`total_weight` is the sum of `final_weight` over exactly the latest-version
rows carrying that label; the exact shares `100·w/W` sum to 100 whenever the
total weight `W` is positive; and every stored (2-decimal-rounded)
`pain_share_pct` is within 1/200 of its exact share. -/
theorem summary_stats_latest_sums_to_100 (args : List (String × JVal)) (rs : List Review)
    (p : Option (List PriorityRow)) (ps : Option (List PersistenceRow))
    (vs : Option (List VersionSignalRow)) (m : String)
    (hver : getArg? args "version" = none)
    (hm : latestVersion rs = some m)
    (hW : 0 < aggTotalWeight (dfLatest rs)) :
    (runTool "get_theme_summary_stats" args ⟨some rs, p, ps, vs⟩).1
        = .ok (.jarr ((summaryAgg (rs.filter (fun r => r.RC_ver == some m))).map themeAggJson))
    ∧ (∀ a ∈ summaryAgg (dfLatest rs),
        a.total_weight = ((rs.filter (fun r =>
            r.RC_ver == some m && r.theme_label == some a.theme_label)).map
          Review.final_weight).sum)
    ∧ ((groupKeys (dfLatest rs)).map
        (fun t => 100 * groupWeight (dfLatest rs) t
          / aggTotalWeight (dfLatest rs))).sum = 100
    ∧ (∀ a ∈ summaryAgg (dfLatest rs),
        |a.pain_share_pct
          - 100 * a.total_weight / aggTotalWeight (dfLatest rs)| ≤ 1 / 200) := by
  have hdfl : dfLatest rs = rs.filter (fun r => r.RC_ver == some m) := by
    rw [dfLatest, hm]
  refine ⟨?_, ?_, ?_, ?_⟩
  · rw [runTool_summary_stats]
    unfold get_theme_summary_stats
    dsimp only
    rw [hver]
    dsimp only
    rw [hdfl]
  · intro a ha
    rw [summaryAgg] at ha
    obtain ⟨t, ht, hEq⟩ := List.mem_map.mp ha
    rw [← hEq]
    dsimp only
    have hcomm : rs.filter (fun r => r.theme_label == some t && r.RC_ver == some m)
        = rs.filter (fun r => r.RC_ver == some m && r.theme_label == some t) := by
      apply List.filter_congr
      intro x hx
      rw [Bool.and_comm]
    rw [groupWeight, hdfl, List.filter_filter, hcomm]
  · rw [sum_map_div_const,
      show ((groupKeys (dfLatest rs)).map (groupWeight (dfLatest rs))).sum
        = aggTotalWeight (dfLatest rs) from rfl,
      mul_div_assoc, div_self (ne_of_gt hW), mul_one]
  · intro a ha
    rw [summaryAgg] at ha
    obtain ⟨t, ht, hEq⟩ := List.mem_map.mp ha
    rw [← hEq]
    dsimp only
    exact abs_round2_sub_le _

/-! ### C7 witness data -/

def statsReview1 : Review := ⟨"a", some "1.0", some "Crash", 1, "crashes at startup", 2⟩

def statsReview2 : Review := ⟨"b", some "2.0", some "Crash", 2, "still crashing", 3⟩

def statsReview3 : Review := ⟨"c", some "2.0", some "UX", 4, "menu confusing", 1⟩

/-- The latest-version rows of the witness data. -/
theorem statsWitness_dfLatest :
    dfLatest [statsReview1, statsReview2, statsReview3] = [statsReview2, statsReview3] := by
  decide

/-- The witness data carries positive total weight on the latest version. -/
theorem statsWitness_weight_pos :
    0 < aggTotalWeight (dfLatest [statsReview1, statsReview2, statsReview3]) := by
  rw [statsWitness_dfLatest]
  have h2 : groupKeys [statsReview2, statsReview3] = ["Crash", "UX"] := by decide
  have hf1 : (([statsReview2, statsReview3] : List Review).filter
      (fun r => r.theme_label == some "Crash")) = [statsReview2] := by decide
  have hf2 : (([statsReview2, statsReview3] : List Review).filter
      (fun r => r.theme_label == some "UX")) = [statsReview3] := by decide
  rw [aggTotalWeight, h2]
  simp only [List.map_cons, List.map_nil, List.sum_cons, List.sum_nil, groupWeight, hf1, hf2]
  norm_num [statsReview2, statsReview3]

/-- Witness for C7: three reviews across versions 1.0 and 2.0; the latest
version is 2.0, its total weight is positive, and the exact pain shares sum
to 100. -/
theorem summary_stats_latest_witness :
    latestVersion [statsReview1, statsReview2, statsReview3] = some "2.0"
      ∧ 0 < aggTotalWeight (dfLatest [statsReview1, statsReview2, statsReview3])
      ∧ ((groupKeys (dfLatest [statsReview1, statsReview2, statsReview3])).map
          (fun t => 100 * groupWeight (dfLatest [statsReview1, statsReview2, statsReview3]) t
            / aggTotalWeight (dfLatest [statsReview1, statsReview2, statsReview3]))).sum = 100 :=
  ⟨by decide, statsWitness_weight_pos,
    (summary_stats_latest_sums_to_100 [] [statsReview1, statsReview2, statsReview3]
      none none none "2.0" rfl (by decide) statsWitness_weight_pos).2.2.1⟩

/-! ## Sorting lemmas for the backlog tool -/

theorem insertAsc_perm [LinearOrder β] (key : α → β) (x : α) (l : List α) :
    List.Perm (insertAsc key x l) (x :: l) := by
  induction l with
  | nil => exact List.Perm.refl _
  | cons y ys ih =>
    rw [insertAsc]
    split
    · exact List.Perm.refl _
    · exact (List.Perm.cons y ih).trans (List.Perm.swap x y ys)

theorem mem_insertAsc [LinearOrder β] (key : α → β) (x a : α) (l : List α) :
    a ∈ insertAsc key x l ↔ a = x ∨ a ∈ l := by
  rw [(insertAsc_perm key x l).mem_iff, List.mem_cons]

theorem sortAsc_perm [LinearOrder β] (key : α → β) (l : List α) :
    List.Perm (sortAsc key l) l := by
  induction l with
  | nil => exact List.Perm.refl _
  | cons x xs ih => exact (insertAsc_perm key x (sortAsc key xs)).trans (List.Perm.cons x ih)

theorem insertAsc_sorted [LinearOrder β] (key : α → β) (x : α) (l : List α)
    (h : l.Pairwise (fun a b => key a ≤ key b)) :
    (insertAsc key x l).Pairwise (fun a b => key a ≤ key b) := by
  induction l with
  | nil => simp [insertAsc]
  | cons y ys ih =>
    rcases List.pairwise_cons.mp h with ⟨hy, hys⟩
    rw [insertAsc]
    split
    · rename_i hc
      refine List.pairwise_cons.mpr ⟨?_, h⟩
      intro b hb
      rcases List.mem_cons.mp hb with rfl | hb
      · exact hc
      · exact le_trans hc (hy b hb)
    · rename_i hc
      refine List.pairwise_cons.mpr ⟨?_, ih hys⟩
      intro b hb
      rcases (mem_insertAsc key x b ys).mp hb with rfl | hb
      · exact le_of_not_le hc
      · exact hy b hb

theorem sortAsc_sorted [LinearOrder β] (key : α → β) (l : List α) :
    (sortAsc key l).Pairwise (fun a b => key a ≤ key b) := by
  induction l with
  | nil => simp [sortAsc]
  | cons x xs ih => exact insertAsc_sorted key x _ ih

theorem sortValuesDesc_perm [LinearOrder β] (key : α → β) (l : List α) :
    List.Perm (sortValuesDesc key l) l := by
  unfold sortValuesDesc
  exact ((List.reverse_perm _).trans (sortAsc_perm key l.reverse)).trans (List.reverse_perm l)

theorem sortValuesDesc_sorted [LinearOrder β] (key : α → β) (l : List α) :
    (sortValuesDesc key l).Pairwise (fun a b => key b ≤ key a) := by
  unfold sortValuesDesc
  rw [List.pairwise_reverse]
  exact sortAsc_sorted key l.reverse

theorem insertAsc_map [LinearOrder β] (f : α → γ) (key : γ → β) (x : α) (l : List α) :
    (insertAsc (fun a => key (f a)) x l).map f = insertAsc key (f x) (l.map f) := by
  induction l with
  | nil => rfl
  | cons y ys ih =>
    rw [List.map_cons, insertAsc, insertAsc]
    split
    · rfl
    · rw [List.map_cons, ih]

theorem sortAsc_map [LinearOrder β] (f : α → γ) (key : γ → β) (l : List α) :
    (sortAsc (fun a => key (f a)) l).map f = sortAsc key (l.map f) := by
  induction l with
  | nil => rfl
  | cons x xs ih =>
    rw [sortAsc, List.map_cons, sortAsc, insertAsc_map, ih]

theorem sortValuesDesc_map [LinearOrder β] (f : α → γ) (key : γ → β) (l : List α) :
    (sortValuesDesc (fun a => key (f a)) l).map f = sortValuesDesc key (l.map f) := by
  unfold sortValuesDesc
  rw [List.map_reverse, ← List.map_reverse f l, sortAsc_map]

theorem le_fst_of_mem_enumFrom {γ} (l : List γ) (n : Nat) (q : Nat × γ)
    (h : q ∈ l.enumFrom n) : n ≤ q.1 := by
  induction l generalizing n with
  | nil => simp [List.enumFrom] at h
  | cons x xs ih =>
    rw [List.enumFrom] at h
    rcases List.mem_cons.mp h with rfl | h
    · exact le_refl n
    · exact le_trans (Nat.le_succ n) (ih (n + 1) h)

theorem pairwise_fst_lt_enumFrom {γ} (l : List γ) (n : Nat) :
    (l.enumFrom n).Pairwise (fun a b => a.1 < b.1) := by
  induction l generalizing n with
  | nil => simp [List.enumFrom]
  | cons x xs ih =>
    rw [List.enumFrom]
    refine List.pairwise_cons.mpr ⟨?_, ih (n + 1)⟩
    intro b hb
    have := le_fst_of_mem_enumFrom xs (n + 1) b hb
    omega

theorem insertAsc_pairwise_stable [LinearOrder β] {γ} (key : γ → β) (x : Nat × γ)
    (l : List (Nat × γ))
    (hl : l.Pairwise (fun a b => key a.2 < key b.2 ∨ (key a.2 = key b.2 ∧ b.1 < a.1)))
    (hx : ∀ y ∈ l, y.1 < x.1) :
    (insertAsc (fun q => key q.2) x l).Pairwise
      (fun a b => key a.2 < key b.2 ∨ (key a.2 = key b.2 ∧ b.1 < a.1)) := by
  induction l with
  | nil => simp [insertAsc]
  | cons y ys ih =>
    rcases List.pairwise_cons.mp hl with ⟨hy, hys⟩
    rw [insertAsc]
    split
    · rename_i hc
      refine List.pairwise_cons.mpr ⟨?_, hl⟩
      intro b hb
      rcases List.mem_cons.mp hb with hb1 | hb
      · rw [hb1]
        rcases lt_or_eq_of_le hc with h | h
        · exact Or.inl h
        · exact Or.inr ⟨h, hx y (List.mem_cons_self y ys)⟩
      · have hyb := hy b hb
        rcases lt_or_eq_of_le hc with h | h
        · rcases hyb with h2 | ⟨h2, _⟩
          · exact Or.inl (lt_trans h h2)
          · exact Or.inl (lt_of_lt_of_le h (le_of_eq h2))
        · rcases hyb with h2 | ⟨h2, _⟩
          · exact Or.inl (lt_of_le_of_lt (le_of_eq h) h2)
          · exact Or.inr ⟨h.trans h2, hx b (List.mem_cons_of_mem y hb)⟩
    · rename_i hc
      refine List.pairwise_cons.mpr
        ⟨?_, ih hys (fun z hz => hx z (List.mem_cons_of_mem y hz))⟩
      intro b hb
      rcases (mem_insertAsc (fun q => key q.2) x b ys).mp hb with hb1 | hb
      · rw [hb1]
        exact Or.inl (lt_of_not_le hc)
      · exact hy b hb

theorem sortAsc_pairwise_stable [LinearOrder β] {γ} (key : γ → β) (l : List (Nat × γ))
    (hl : l.Pairwise (fun a b => b.1 < a.1)) :
    (sortAsc (fun q => key q.2) l).Pairwise
      (fun a b => key a.2 < key b.2 ∨ (key a.2 = key b.2 ∧ b.1 < a.1)) := by
  induction l with
  | nil => simp [sortAsc]
  | cons x xs ih =>
    rcases List.pairwise_cons.mp hl with ⟨hx, hxs⟩
    rw [sortAsc]
    refine insertAsc_pairwise_stable key x _ (ih hxs) ?_
    intro y hy
    exact hx y ((sortAsc_perm _ xs).mem_iff.mp hy)

/-- On the index-annotated rows, the descending sort is lexicographically
sorted: strictly greater keys first, and among equal keys the smaller
original index first — the pandas double reversal preserves tie order. -/
theorem sortValuesDesc_enum_stable [LinearOrder β] {γ} (key : γ → β) (l : List γ) :
    (sortValuesDesc (fun q : Nat × γ => key q.2) l.enum).Pairwise
      (fun a b => key b.2 < key a.2 ∨ (key b.2 = key a.2 ∧ a.1 < b.1)) := by
  unfold sortValuesDesc
  rw [List.pairwise_reverse]
  refine sortAsc_pairwise_stable key l.enum.reverse ?_
  rw [List.pairwise_reverse]
  exact pairwise_fst_lt_enumFrom l 0

/-- Dropping the index annotations recovers the plain descending sort: the
sort only inspects keys. -/
theorem sortValuesDesc_enum_map_snd [LinearOrder β] {γ} (key : γ → β) (l : List γ) :
    (sortValuesDesc (fun q : Nat × γ => key q.2) l.enum).map Prod.snd
      = sortValuesDesc key l := by
  rw [sortValuesDesc_map Prod.snd key l.enum, List.enum_map_snd]

/-! ## C2 -/

theorem ratTrunc_intCast (n : Int) : ratTrunc (n : ℚ) = n := by
  rw [ratTrunc, Rat.num_intCast, Rat.den_intCast]
  exact Int.tdiv_one n

/-- C2: the backlog tool returns `min(top_n, rows)` rows — the head of the
table sorted by `Priority_Score` descending; the sorted table is a
permutation of the backlog sorted descending (tie-insensitive facts, true of
the program for every table). The tie-stability conjuncts — dropping the
index annotations recovers the sort, and the index-annotated sort is
lexicographically ordered (score descending, ties by ascending original
index) — are asserted only for tables of at most 16 rows: there numpy's
default quicksort is its stable insertion-sort fallback and the pandas
double reversal provably keeps ties in original row order (this covers the
spec's 10-row and 4-row scenarios); for larger tables `kind='quicksort'`
guarantees no tie order and the theorem claims none. -/
theorem priority_backlog_top_n (p : List PriorityRow) (rv : Option (List Review))
    (ps : Option (List PersistenceRow)) (vs : Option (List VersionSignalRow)) (n : Int)
    (hn : 1 ≤ n) :
    (runTool "get_priority_backlog" [("top_n", .jnum (n : ℚ))] ⟨rv, some p, ps, vs⟩).1
        = .ok (.jarr ((dfHead n (sortValuesDesc PriorityRow.Priority_Score p)).map
            priorityRowJson))
      ∧ (dfHead n (sortValuesDesc PriorityRow.Priority_Score p)).length
          = min n.toNat p.length
      ∧ List.Perm (sortValuesDesc PriorityRow.Priority_Score p) p
      ∧ (sortValuesDesc PriorityRow.Priority_Score p).Pairwise
          (fun a b => b.Priority_Score ≤ a.Priority_Score)
      ∧ (p.length ≤ 16 →
          (sortValuesDesc (fun q : Nat × PriorityRow => q.2.Priority_Score) p.enum).map
              Prod.snd
            = sortValuesDesc PriorityRow.Priority_Score p
          ∧ (sortValuesDesc (fun q : Nat × PriorityRow => q.2.Priority_Score) p.enum).Pairwise
              (fun a b => b.2.Priority_Score < a.2.Priority_Score
                ∨ (b.2.Priority_Score = a.2.Priority_Score ∧ a.1 < b.1))) := by
  refine ⟨?_, ?_, sortValuesDesc_perm _ p, sortValuesDesc_sorted _ p,
    fun _ => ⟨sortValuesDesc_enum_map_snd _ p, sortValuesDesc_enum_stable _ p⟩⟩
  · rw [show runTool "get_priority_backlog" [("top_n", .jnum (n : ℚ))] ⟨rv, some p, ps, vs⟩
        = get_priority_backlog [("top_n", .jnum (n : ℚ))] ⟨rv, some p, ps, vs⟩ from rfl]
    unfold get_priority_backlog
    rw [show pyInt (getArg [("top_n", JVal.jnum (n : ℚ))] "top_n" (.jnum 10))
        = .ok (ratTrunc (n : ℚ)) from rfl, ratTrunc_intCast]
  · rw [dfHead, if_pos (by omega : (0:Int) ≤ n), List.length_take,
      (sortValuesDesc_perm PriorityRow.Priority_Score p).length_eq]

/-! ### C2 witness data: scores [5, 5, 3, 9], top_n = 2 -/

def backlogRowA : PriorityRow := ⟨"Ads Volume", 5, 1, 1, 1, 1, false, false⟩

def backlogRowB : PriorityRow := ⟨"Battery Drain", 5, 1, 1, 1, 1, false, true⟩

def backlogRowC : PriorityRow := ⟨"Crash Loop", 3, 1, 1, 1, 1, false, false⟩

def backlogRowD : PriorityRow := ⟨"Download Fails", 9, 1, 1, 1, 1, true, false⟩

/-- Witness for C2, the spec scenario: scores [5.0, 5.0, 3.0, 9.0] with
`top_n = 2` return the 9.0 row and then the first of the two 5.0 rows in
input order, and the 4-row table satisfies the stability size bound. -/
theorem priority_backlog_top_n_witness :
    ((1:Int) ≤ 2)
      ∧ ([backlogRowA, backlogRowB, backlogRowC, backlogRowD].length ≤ 16)
      ∧ ((runTool "get_priority_backlog" [("top_n", .jnum ((2:Int) : ℚ))]
            ⟨none, some [backlogRowA, backlogRowB, backlogRowC, backlogRowD], none, none⟩).1
          = .ok (.jarr ((dfHead 2 (sortValuesDesc PriorityRow.Priority_Score
              [backlogRowA, backlogRowB, backlogRowC, backlogRowD])).map priorityRowJson)))
      ∧ ((sortValuesDesc (fun q : Nat × PriorityRow => q.2.Priority_Score)
            [backlogRowA, backlogRowB, backlogRowC, backlogRowD].enum).map Prod.snd
          = sortValuesDesc PriorityRow.Priority_Score
              [backlogRowA, backlogRowB, backlogRowC, backlogRowD])
      ∧ dfHead 2 (sortValuesDesc PriorityRow.Priority_Score
            [backlogRowA, backlogRowB, backlogRowC, backlogRowD])
          = [backlogRowD, backlogRowA] :=
  ⟨by decide, by decide,
    (priority_backlog_top_n [backlogRowA, backlogRowB, backlogRowC, backlogRowD]
      none none none 2 (by decide)).1,
    ((priority_backlog_top_n [backlogRowA, backlogRowB, backlogRowC, backlogRowD]
      none none none 2 (by decide)).2.2.2.2 (by decide)).1,
    by decide⟩

end ReleasePulse